import Mathlib

/-
Verification of the TcpBbr congestion-control model
(src/src/internet/model/tcp-bbr.cc, tcp-bbr.h).

Shallow embedding conventions:
- C++ double values (gains, alpha, rates in bit/s, times in seconds) are
  modelled as rationals; a cast of a nonnegative double to an unsigned
  integer is modelled as the floor (toUint below).
- uint32_t / uint64_t counters are modelled as naturals; the one signed
  quantity the code inspects (rs.m_delivered) is an integer.
- The ns3 Time sentinel Time::Max() is the distinguished rational timeMax.
- The simulator clock (Simulator::Now()) is passed explicitly as a rational
  argument wherever a member function reads it.
-/

namespace NS3Bbr

/-- BBR mode enumeration, from BbrMode_t in tcp-bbr.h. -/
inductive BbrMode
  | startup
  | drain
  | probeBW
  | probeRTT
deriving DecidableEq, Repr

/-- Congestion states of the socket, from TcpSocketState; only the
constructors the BBR code inspects are relevant. -/
inductive TcpCongState
  | caOpen
  | caDisorder
  | caCwr
  | caRecovery
  | caLoss
deriving DecidableEq, Repr

/-- ECN codepoint, from TcpSocketState::EcnCodePoint_t. -/
inductive EcnCodePoint
  | notEct
  | ect1
  | ect0
deriving DecidableEq, Repr

/-- ECN state-machine values, from TcpSocketState::EcnState_t. -/
inductive EcnStateKind
  | disabled
  | idle
  | ceRcvd
  | sendingEce
  | eceRcvd
  | cwrSent
deriving DecidableEq, Repr

/-- Sentinel for ns3 Time::Max(); time values are rationals. -/
def timeMax : ℚ := 9223372036854775807

/-- Cast of a nonnegative double to an unsigned integer (C truncation
toward zero). -/
def toUint (q : ℚ) : ℕ := (Int.tdiv q.num (q.den : ℤ)).toNat

/-- The fields of the transport control block (TcpSocketState) that the
TcpBbr code reads or writes. -/
structure Tcb where
  cWnd : ℕ
  segmentSize : ℕ
  initialCWnd : ℕ
  bytesInFlight : ℕ
  congState : TcpCongState
  ecnState : EcnStateKind
  ectCodePoint : EcnCodePoint
  lastAckedSeq : ℕ
  nextTxSequence : ℕ
  lastRtt : ℚ
  ssThresh : ℕ
  useEcn : Bool
  ecnModeDctcp : Bool
deriving DecidableEq, Repr

/-- One delivery sample, from TcpRateOps::TcpRateSample: the fields the
BBR code reads. m_delivered is signed in the source (the code tests it
against 0), the rest are unsigned or boolean. -/
structure RateSample where
  deliveryRate : ℚ
  interval : ℚ
  isAppLimited : Bool
  priorDelivered : ℕ
  priorInFlight : ℕ
  bytesLoss : ℕ
  ackedSacked : ℕ
  delivered : ℤ
deriving DecidableEq, Repr

/-- Modelled from the spec: the file windowed-filter.h that implements the
generic sliding-window extremum tracker is not among the provided sources.
Per spec section 3, WindowedExtremum is the record of the current best
value, the window length, and the round of the last update; per spec
section 2 the best equals the extremal sample within the trailing window,
degrading to the most recent sample once the window has fully expired. -/
structure WindowedExtremum where
  best : ℚ
  windowLength : ℕ
  lastUpdateRound : ℕ
deriving DecidableEq, Repr

/-- Modelled from the spec: default-constructed empty filter. -/
def WindowedExtremum.initial : WindowedExtremum :=
  { best := 0, windowLength := 0, lastUpdateRound := 0 }

/-- Modelled from the spec: feeding one sample at a given round either
replaces the best (sample at least as good, or window expired) or leaves
it in place. -/
def WindowedExtremum.update (f : WindowedExtremum) (sample : ℚ) (round : ℕ) :
    WindowedExtremum :=
  if f.lastUpdateRound + f.windowLength ≤ round then
    { f with best := sample, lastUpdateRound := round }
  else if f.best ≤ sample then
    { f with best := sample, lastUpdateRound := round }
  else f

/-- The TcpBbr model state: the member variables declared in tcp-bbr.h.
The uniform random variable member (a shared smart pointer in the source)
is modelled as an opaque handle. Base-class (TcpLinuxReno) members are
outside the model. -/
structure BbrState where
  state : BbrMode
  maxBwFilter : WindowedExtremum
  bandwidthWindowLength : ℕ
  pacingGain : ℚ
  cWndGain : ℚ
  highGain : ℚ
  isPipeFilled : Bool
  minPipeCwnd : ℕ
  roundCount : ℕ
  roundStart : Bool
  nextRoundDelivered : ℕ
  probeRttDuration : ℚ
  probeRtPropStamp : ℚ
  probeRttDoneStamp : ℚ
  probeRttRoundDone : Bool
  packetConservation : Bool
  priorCwnd : ℕ
  idleRestart : Bool
  targetCWnd : ℕ
  fullBandwidth : ℚ
  fullBandwidthCount : ℕ
  minRtt : ℚ
  sendQuantum : ℕ
  cycleStamp : ℚ
  cycleIndex : ℕ
  minRttExpired : Bool
  minRttFilterLen : ℚ
  minRttStamp : ℚ
  isInit : Bool
  uv : ℕ
  delivered : ℕ
  appLimited : ℕ
  extraAckedGain : ℕ
  extraAcked0 : ℕ
  extraAcked1 : ℕ
  extraAckedWinRtt : ℕ
  extraAckedWinRttLength : ℕ
  ackEpochAckedResetThresh : ℕ
  extraAckedIdx : ℕ
  ackEpochTime : ℚ
  ackEpochAcked : ℕ
  hasSeenRtt : Bool
  pacingMargin : ℚ
  rttJitter : ℚ
  ackedBytesEcn : ℕ
  ackedBytesTotal : ℕ
  priorRcvNxt : ℕ
  priorRcvNxtFlag : Bool
  alpha : ℚ
  nextSeq : ℕ
  nextSeqFlag : Bool
  ceState : Bool
  delayedAckReserved : Bool
  g : ℚ
  useEct0 : Bool
  dctcpInit : Bool

/-- TcpBbr::TcpBbr(const TcpBbr&), tcp-bbr.cc lines 130-185. The
initializer list copies the listed members from sock; members absent from
the list take their in-class default initializers (m_state, m_maxBwFilter,
m_extraAcked, m_rttJitter, m_pacingMargin), and m_minRtt is explicitly
initialized to Time::Max() rather than copied. -/
def copyConstruct (sock : BbrState) : BbrState :=
  { state := BbrMode.startup
    maxBwFilter := WindowedExtremum.initial
    bandwidthWindowLength := sock.bandwidthWindowLength
    pacingGain := sock.pacingGain
    cWndGain := sock.cWndGain
    highGain := sock.highGain
    isPipeFilled := sock.isPipeFilled
    minPipeCwnd := sock.minPipeCwnd
    roundCount := sock.roundCount
    roundStart := sock.roundStart
    nextRoundDelivered := sock.nextRoundDelivered
    probeRttDuration := sock.probeRttDuration
    probeRtPropStamp := sock.probeRtPropStamp
    probeRttDoneStamp := sock.probeRttDoneStamp
    probeRttRoundDone := sock.probeRttRoundDone
    packetConservation := sock.packetConservation
    priorCwnd := sock.priorCwnd
    idleRestart := sock.idleRestart
    targetCWnd := sock.targetCWnd
    fullBandwidth := sock.fullBandwidth
    fullBandwidthCount := sock.fullBandwidthCount
    minRtt := timeMax
    sendQuantum := sock.sendQuantum
    cycleStamp := sock.cycleStamp
    cycleIndex := sock.cycleIndex
    minRttExpired := sock.minRttExpired
    minRttFilterLen := sock.minRttFilterLen
    minRttStamp := sock.minRttStamp
    isInit := sock.isInit
    uv := sock.uv
    delivered := sock.delivered
    appLimited := sock.appLimited
    extraAckedGain := sock.extraAckedGain
    extraAcked0 := 0
    extraAcked1 := 0
    extraAckedWinRtt := sock.extraAckedWinRtt
    extraAckedWinRttLength := sock.extraAckedWinRttLength
    ackEpochAckedResetThresh := sock.ackEpochAckedResetThresh
    extraAckedIdx := sock.extraAckedIdx
    ackEpochTime := sock.ackEpochTime
    ackEpochAcked := sock.ackEpochAcked
    hasSeenRtt := sock.hasSeenRtt
    pacingMargin := 1/100
    rttJitter := 0
    ackedBytesEcn := sock.ackedBytesEcn
    ackedBytesTotal := sock.ackedBytesTotal
    priorRcvNxt := sock.priorRcvNxt
    priorRcvNxtFlag := sock.priorRcvNxtFlag
    alpha := sock.alpha
    nextSeq := sock.nextSeq
    nextSeqFlag := sock.nextSeqFlag
    ceState := sock.ceState
    delayedAckReserved := sock.delayedAckReserved
    g := sock.g
    useEct0 := sock.useEct0
    dctcpInit := sock.dctcpInit }

/-- TcpBbr::Fork, tcp-bbr.cc lines 884-888: CopyObject invokes the copy
constructor. -/
def fork (s : BbrState) : BbrState := copyConstruct s

/-- The PACING_GAIN_CYCLE table, tcp-bbr.cc line 28, indexed modulo the
cycle length 8 (GAIN_CYCLE_LENGTH). -/
def pacingGainCycle (i : ℕ) : ℚ :=
  if i % 8 = 0 then 5/4 else if i % 8 = 1 then 3/4 else 1

/-- TcpBbr::AdvanceCyclePhase, tcp-bbr.cc lines 309-316. -/
def advanceCyclePhase (s : BbrState) (now : ℚ) : BbrState :=
  { s with
    cycleStamp := now
    cycleIndex := (s.cycleIndex + 1) % 8
    pacingGain := pacingGainCycle ((s.cycleIndex + 1) % 8) }

/-- TcpBbr::EnterProbeBW, tcp-bbr.cc lines 382-391. The argument r models
the drawn value (int)m_uv->GetValue(0, 6). -/
def enterProbeBW (s : BbrState) (now : ℚ) (r : ℕ) : BbrState :=
  advanceCyclePhase
    { s with
      state := BbrMode.probeBW
      pacingGain := 1
      cWndGain := 2
      cycleIndex := 8 - 1 - r }
    now

/-- Iterated cycle advances; one timestamp per advance. -/
def advanceRun (s : BbrState) (ts : List ℚ) : BbrState :=
  ts.foldl (fun st t => advanceCyclePhase st t) s

/-- TcpBbr::InFlight, tcp-bbr.cc lines 291-307. -/
def inFlight (s : BbrState) (tcb : Tcb) (gain : ℚ) : ℕ :=
  if s.minRtt = timeMax then
    tcb.initialCWnd * tcb.segmentSize
  else
    let quanta : ℚ := 3 * (s.sendQuantum : ℚ)
    let estimatedBdp : ℚ := s.maxBwFilter.best * s.minRtt / 8
    if s.state = BbrMode.probeBW ∧ s.cycleIndex = 0 then
      toUint (gain * estimatedBdp + quanta + 2 * (tcb.segmentSize : ℚ))
    else
      toUint (gain * estimatedBdp + quanta)

/-- The in-flight target as the spec words it (spec section 4.1): whenever
the min-RTT estimate is unknown the result is the initial-congestion-window
bytes; otherwise, with quanta three times the send quantum and bdp the best
bandwidth times the min RTT over eight, the result is gain times bdp plus
quanta, plus two segments more exactly when the mode is PROBE_BW at cycle
index zero. -/
def specInFlightTarget (s : BbrState) (tcb : Tcb) (gain : ℚ) : ℕ :=
  let quanta : ℚ := 3 * (s.sendQuantum : ℚ)
  let bdp : ℚ := s.maxBwFilter.best * s.minRtt / 8
  let bonus : ℚ := if s.state = BbrMode.probeBW ∧ s.cycleIndex = 0 then
      2 * (tcb.segmentSize : ℚ) else 0
  if s.minRtt = timeMax then tcb.initialCWnd * tcb.segmentSize
  else toUint (gain * bdp + quanta + bonus)

/-- TcpBbr::CheckFullPipe, tcp-bbr.cc lines 348-371. -/
def checkFullPipe (s : BbrState) (rs : RateSample) : BbrState :=
  if s.isPipeFilled ∨ ¬s.roundStart ∨ rs.isAppLimited then s
  else if s.fullBandwidth * (5/4) ≤ s.maxBwFilter.best then
    { s with fullBandwidth := s.maxBwFilter.best, fullBandwidthCount := 0 }
  else if 3 ≤ s.fullBandwidthCount + 1 then
    { s with fullBandwidthCount := s.fullBandwidthCount + 1, isPipeFilled := true }
  else
    { s with fullBandwidthCount := s.fullBandwidthCount + 1 }

/-- Number of steps along a trace at which the pipe-filled latch flips
from false to true. -/
def fireCount : BbrState → List RateSample → ℕ
  | _, [] => 0
  | s, rs :: l =>
    let s1 := checkFullPipe s rs
    (if ¬s.isPipeFilled ∧ s1.isPipeFilled then 1 else 0) + fireCount s1 l

/-- TcpBbr::ModulateCwndForRecovery, tcp-bbr.cc lines 591-607. Returns the
updated control block and the C++ return value. -/
def modulateCwndForRecovery (s : BbrState) (tcb : Tcb) (rs : RateSample) :
    Tcb × Bool :=
  let tcb1 :=
    if 0 < rs.bytesLoss then
      { tcb with
        cWnd := (max ((tcb.cWnd : ℤ) - (rs.bytesLoss : ℤ)) (tcb.segmentSize : ℤ)).toNat }
    else tcb
  if s.packetConservation then
    ({ tcb1 with cWnd := max tcb1.cWnd (tcb.bytesInFlight + rs.ackedSacked) }, true)
  else (tcb1, false)

/-- TcpBbr::ModulateCwndForProbeRTT, tcp-bbr.cc lines 609-617. -/
def modulateCwndForProbeRTT (s : BbrState) (tcb : Tcb) : Tcb :=
  if s.state = BbrMode.probeRTT then
    { tcb with cWnd := min tcb.cWnd s.minPipeCwnd }
  else tcb

/-- TcpBbr::AckAggregationCwnd, tcp-bbr.cc lines 530-544. -/
def ackAggregationCwnd (s : BbrState) : ℕ :=
  if s.extraAckedGain ≠ 0 ∧ s.isPipeFilled then
    min (s.extraAckedGain * max s.extraAcked0 s.extraAcked1)
      (toUint s.maxBwFilter.best / 80)
  else 0

/-- TcpBbr::UpdateTargetCwnd, tcp-bbr.cc lines 523-528. -/
def updateTargetCwnd (s : BbrState) (tcb : Tcb) : BbrState :=
  { s with targetCWnd := inFlight s tcb s.cWndGain + ackAggregationCwnd s }

/-- TcpBbr::SetCwnd, tcp-bbr.cc lines 619-652. The goto-done early exits
of the source become the first two branches; both fall through to the
ProbeRTT modulation, as the label done does. -/
def setCwnd (s : BbrState) (tcb : Tcb) (rs : RateSample) : BbrState × Tcb :=
  if rs.ackedSacked = 0 then
    (s, modulateCwndForProbeRTT s tcb)
  else
    let mr :=
      if tcb.congState = TcpCongState.caRecovery then
        modulateCwndForRecovery s tcb rs
      else (tcb, false)
    if mr.2 then (s, modulateCwndForProbeRTT s mr.1)
    else
      let s1 := updateTargetCwnd s mr.1
      let grown :=
        if s1.isPipeFilled then
          min (mr.1.cWnd + rs.ackedSacked) s1.targetCWnd
        else if mr.1.cWnd < s1.targetCWnd ∨
            s1.delivered < tcb.initialCWnd * tcb.segmentSize then
          mr.1.cWnd + rs.ackedSacked
        else mr.1.cWnd
      let tcb2 := { mr.1 with cWnd := max grown s1.minPipeCwnd }
      (s1, modulateCwndForProbeRTT s1 tcb2)

/-- TcpBbr::UpdateRound, tcp-bbr.cc lines 654-669. -/
def updateRound (s : BbrState) (rs : RateSample) : BbrState :=
  if s.nextRoundDelivered ≤ rs.priorDelivered then
    { s with
      nextRoundDelivered := s.delivered
      roundCount := s.roundCount + 1
      roundStart := true
      packetConservation := false }
  else
    { s with roundStart := false }

/-- TcpBbr::UpdateBottleneckBandwidth, tcp-bbr.cc lines 671-687. The guard
ignores samples with a negative delivered count or a zero interval. -/
def updateBottleneckBandwidth (s : BbrState) (rs : RateSample) : BbrState :=
  if rs.delivered < 0 ∨ rs.interval = 0 then s
  else
    let s1 := updateRound s rs
    if s1.maxBwFilter.best ≤ rs.deliveryRate ∨ ¬rs.isAppLimited then
      { s1 with maxBwFilter := s1.maxBwFilter.update rs.deliveryRate s1.roundCount }
    else s1

/-- The round-start aging and slot-flip prologue of
TcpBbr::UpdateAckAggregation, tcp-bbr.cc lines 559-568. -/
def extraAckedAging (s : BbrState) : BbrState :=
  if s.roundStart then
    let w := min 31 (s.extraAckedWinRtt + 1)
    if s.extraAckedWinRttLength ≤ w then
      let idx := if s.extraAckedIdx ≠ 0 then 0 else 1
      if idx = 0 then
        { s with extraAckedWinRtt := 0, extraAckedIdx := idx, extraAcked0 := 0 }
      else
        { s with extraAckedWinRtt := 0, extraAckedIdx := idx, extraAcked1 := 0 }
    else { s with extraAckedWinRtt := w }
  else s

/-- The epoch accounting and slot store of TcpBbr::UpdateAckAggregation,
tcp-bbr.cc lines 570-588. The sequence of member mutations of the source
(epoch reset, accumulation, conditional slot store) is flattened into one
record update whose per-field conditionals give each member its final
value. -/
def epochStore (s1 : BbrState) (tcb : Tcb) (rs : RateSample) (now : ℚ) :
    BbrState :=
  let epochProp : ℕ := toUint (now - s1.ackEpochTime)
  let expectedAcked : ℕ := toUint s1.maxBwFilter.best * epochProp / 8
  let reset := s1.ackEpochAcked ≤ expectedAcked ∨
    s1.ackEpochAckedResetThresh ≤ s1.ackEpochAcked + rs.ackedSacked
  let acked3 := (if reset then 0 else s1.ackEpochAcked) + rs.ackedSacked
  let expected2 := if reset then 0 else expectedAcked
  let extraAck := min (acked3 - expected2) tcb.cWnd
  let slotOld := if s1.extraAckedIdx = 0 then s1.extraAcked0 else s1.extraAcked1
  { s1 with
    ackEpochTime := if reset then now else s1.ackEpochTime
    ackEpochAcked := acked3
    extraAcked0 := if s1.extraAckedIdx = 0 ∧ slotOld < extraAck then extraAck
      else s1.extraAcked0
    extraAcked1 := if s1.extraAckedIdx ≠ 0 ∧ slotOld < extraAck then extraAck
      else s1.extraAcked1 }

/-- The extra-acked estimate of one epochStore step (the value min of
accumulated minus expected and the congestion window, tcp-bbr.cc lines
582-583), shared so concrete runs can be evaluated slot by slot. -/
def epochExtraAck (s1 : BbrState) (tcb : Tcb) (rs : RateSample) (now : ℚ) :
    ℕ :=
  let epochProp : ℕ := toUint (now - s1.ackEpochTime)
  let expectedAcked : ℕ := toUint s1.maxBwFilter.best * epochProp / 8
  let reset := s1.ackEpochAcked ≤ expectedAcked ∨
    s1.ackEpochAckedResetThresh ≤ s1.ackEpochAcked + rs.ackedSacked
  let acked3 := (if reset then 0 else s1.ackEpochAcked) + rs.ackedSacked
  let expected2 := if reset then 0 else expectedAcked
  min (acked3 - expected2) tcb.cWnd

/-- TcpBbr::UpdateAckAggregation, tcp-bbr.cc lines 546-589: the early
guard, then the two stages in source order. -/
def updateAckAggregation (s : BbrState) (tcb : Tcb) (rs : RateSample) (now : ℚ) :
    BbrState :=
  if s.extraAckedGain = 0 ∨ rs.ackedSacked = 0 ∨ rs.delivered < 0 then s
  else epochStore (extraAckedAging s) tcb rs now

/-- Nanoseconds of a time value held as rational seconds (Time
GetNanoSeconds, without the integral truncation, which no claim observes). -/
def nanos (t : ℚ) : ℚ := t * 1000000000

/-- TcpBbr::PktsAcked, tcp-bbr.cc lines 890-938, with TcpBbr::Reset
(lines 948-955) inlined at its single call site. -/
def pktsAcked (s : BbrState) (tcb : Tcb) (segmentsAcked : ℕ) (rtt : ℚ) :
    BbrState :=
  let s0 := { s with
    rttJitter := (1 - s.g) * s.rttJitter + s.g * |nanos rtt - nanos s.minRtt| }
  let s1 := { s0 with
    ackedBytesTotal := s0.ackedBytesTotal + segmentsAcked * tcb.segmentSize }
  let s2 :=
    if tcb.ecnState = EcnStateKind.eceRcvd then
      let sE := { s1 with
        ackedBytesEcn := s1.ackedBytesEcn + segmentsAcked * tcb.segmentSize }
      let sE0 :=
        if tcb.ectCodePoint = EcnCodePoint.ect0 then
          { sE with cWndGain := min (5/2) (sE.cWndGain + 1/10) }
        else sE
      if tcb.ectCodePoint = EcnCodePoint.ect1 then
        { sE0 with cWndGain := max (3/2) (sE0.cWndGain - 1/10) }
      else sE0
    else s1
  let s3 : BbrState :=
    if ¬s2.nextSeqFlag then
      { s2 with nextSeq := tcb.nextTxSequence, nextSeqFlag := true }
    else s2
  if s3.nextSeq ≤ tcb.lastAckedSeq then
    let bytesEcn : ℚ :=
      if 0 < s3.ackedBytesTotal then
        (s3.ackedBytesEcn : ℚ) / (s3.ackedBytesTotal : ℚ)
      else 0
    { s3 with
      alpha := (1 - s3.g) * s3.alpha + s3.g * bytesEcn
      nextSeq := tcb.nextTxSequence
      ackedBytesEcn := 0
      ackedBytesTotal := 0 }
  else s3

/-- TcpBbr::InitializeDctcpAlpha, tcp-bbr.cc lines 940-946. NS_ABORT_MSG_IF
aborts the program when the model is already initialized; the abort is the
none result. -/
def initDctcpAlpha (s : BbrState) (a : ℚ) : Option BbrState :=
  if s.dctcpInit then none else some { s with alpha := a }

/-- TcpBbr::Init, tcp-bbr.cc lines 765-775: forces DctcpEcn mode on the
control block, selects the ECT codepoint, and marks the DCTCP side
initialized. (SetSuppressIncreaseIfCwndLimited concerns a base-class
member outside the model.) -/
def bbrInit (s : BbrState) (tcb : Tcb) : BbrState × Tcb :=
  ({ s with dctcpInit := true },
   { tcb with
     useEcn := true
     ecnModeDctcp := true
     ectCodePoint := if s.useEct0 then EcnCodePoint.ect0 else EcnCodePoint.ect1 })

/-- A concrete model state (attribute defaults of GetTypeId and the
post-CongestionStateSet initial values) used to instantiate theorems. -/
def baseState : BbrState :=
  { state := BbrMode.startup
    maxBwFilter := WindowedExtremum.initial
    bandwidthWindowLength := 10
    pacingGain := 289/100
    cWndGain := 289/100
    highGain := 289/100
    isPipeFilled := false
    minPipeCwnd := 4000
    roundCount := 0
    roundStart := false
    nextRoundDelivered := 0
    probeRttDuration := 1/5
    probeRtPropStamp := 0
    probeRttDoneStamp := 0
    probeRttRoundDone := false
    packetConservation := false
    priorCwnd := 0
    idleRestart := false
    targetCWnd := 0
    fullBandwidth := 0
    fullBandwidthCount := 0
    minRtt := timeMax
    sendQuantum := 1000
    cycleStamp := 0
    cycleIndex := 0
    minRttExpired := false
    minRttFilterLen := 10
    minRttStamp := 0
    isInit := true
    uv := 4
    delivered := 0
    appLimited := 0
    extraAckedGain := 1
    extraAcked0 := 0
    extraAcked1 := 0
    extraAckedWinRtt := 0
    extraAckedWinRttLength := 5
    ackEpochAckedResetThresh := 4096
    extraAckedIdx := 0
    ackEpochTime := 0
    ackEpochAcked := 0
    hasSeenRtt := false
    pacingMargin := 1/100
    rttJitter := 0
    ackedBytesEcn := 0
    ackedBytesTotal := 0
    priorRcvNxt := 0
    priorRcvNxtFlag := false
    alpha := 1
    nextSeq := 0
    nextSeqFlag := false
    ceState := false
    delayedAckReserved := false
    g := 1/16
    useEct0 := true
    dctcpInit := false }

/-- A concrete transport control block used to instantiate theorems. -/
def baseTcb : Tcb :=
  { cWnd := 10000
    segmentSize := 1000
    initialCWnd := 10
    bytesInFlight := 0
    congState := TcpCongState.caOpen
    ecnState := EcnStateKind.idle
    ectCodePoint := EcnCodePoint.ect0
    lastAckedSeq := 0
    nextTxSequence := 0
    lastRtt := 1/10
    ssThresh := 0
    useEcn := true
    ecnModeDctcp := true }

/-- A concrete delivery sample used to instantiate theorems. -/
def baseRs : RateSample :=
  { deliveryRate := 0
    interval := 1/100
    isAppLimited := false
    priorDelivered := 0
    priorInFlight := 0
    bytesLoss := 0
    ackedSacked := 0
    delivered := 0 }

/-- C1 counterexample input: loss recovery with packet conservation. -/
def exS1 : BbrState := { baseState with packetConservation := true }

/-- C1 counterexample control block: a window of one segment. -/
def exTcb1 : Tcb := { baseTcb with cWnd := 1000, congState := TcpCongState.caRecovery }

/-- C1 counterexample sample: one byte newly acknowledged. -/
def exRs1 : RateSample := { baseRs with ackedSacked := 1 }

/-- C1 witness sample: one hundred bytes newly acknowledged. -/
def exRs1w : RateSample := { baseRs with ackedSacked := 100 }

/-- C2 witness state: two qualifying rounds counted, third in progress. -/
def exS2 : BbrState :=
  { baseState with
    roundStart := true
    fullBandwidthCount := 2
    fullBandwidth := 8
    maxBwFilter := { best := 9, windowLength := 10, lastUpdateRound := 0 } }

/-- C5 witness state: an open observation window with accumulated bytes. -/
def exS5 : BbrState :=
  { baseState with
    nextSeqFlag := true
    nextSeq := 10
    ackedBytesTotal := 1000
    ackedBytesEcn := 500 }

/-- C5 witness control block. -/
def exTcb5 : Tcb :=
  { baseTcb with lastAckedSeq := 20, nextTxSequence := 77, segmentSize := 100 }

/-- C6 counterexample state: cwnd gain far below the claimed band. -/
def exS6 : BbrState := { baseState with cWndGain := 1, nextSeqFlag := true, nextSeq := 50 }

/-- C6 control block: ECT(0) with a marked acknowledgment pending. -/
def exTcb6 : Tcb :=
  { baseTcb with ecnState := EcnStateKind.eceRcvd, nextTxSequence := 100 }

/-- C6 witness state: cwnd gain at its default 2. -/
def exS6w : BbrState := { baseState with cWndGain := 2, nextSeqFlag := true, nextSeq := 50 }

/-- C7 counterexample base state (no round start, large reset threshold). -/
def exS7 : BbrState := { baseState with ackEpochAckedResetThresh := 1000000 }

/-- C7 counterexample first control block: large window. -/
def exTcb7a : Tcb := { baseTcb with cWnd := 10000 }

/-- C7 counterexample second control block: shrunken window. -/
def exTcb7b : Tcb := { baseTcb with cWnd := 4000 }

/-- C7 counterexample first sample. -/
def exRs7a : RateSample := { baseRs with ackedSacked := 8000 }

/-- C7 counterexample second sample. -/
def exRs7b : RateSample := { baseRs with ackedSacked := 1 }

/-- C7 counterexample intermediate state after the first update. -/
def exS7b : BbrState := updateAckAggregation exS7 exTcb7a exRs7a 1

/-- C7 witness state: one round start away from the slot flip. -/
def exS7w : BbrState := { baseState with roundStart := true, extraAckedWinRtt := 4 }

/-- C8 counterexample sample: negative interval, nonnegative delivered. -/
def exRs8 : RateSample := { baseRs with interval := -1, delivered := 5 }

/-- C8 witness sample: negative delivered count. -/
def exRs8w : RateSample := { baseRs with delivered := -3 }

/-- C9 counterexample state: a parent with a known min-RTT estimate. -/
def exS9 : BbrState := { baseState with minRtt := 1/20 }

/-- Claim C9, counterexample: forking a connection whose min-RTT estimate
is 1/20 s yields a child whose min-RTT estimate differs from the parent
one, refuting that the entire model state including the min-RTT estimate
is copied. -/
theorem fork_does_not_copy_min_rtt : (fork exS9).minRtt ≠ exS9.minRtt := by
  norm_num [fork, copyConstruct, exS9, baseState, timeMax]

/-- Claim C9 (amended): forking copies every modelled member except that
the min-RTT estimate is re-initialized to the unknown sentinel Time::Max()
and the mode, the bandwidth filter, the two extra-acked slots, the RTT
jitter and the pacing margin take their default initial values; the
random-variable handle is shared, not duplicated. -/
theorem fork_copies_all_but_reset_fields (s : BbrState) :
    fork s = { s with
      state := BbrMode.startup
      maxBwFilter := WindowedExtremum.initial
      minRtt := timeMax
      extraAcked0 := 0
      extraAcked1 := 0
      rttJitter := 0
      pacingMargin := 1/100 } := rfl

/-- Claim C4: the in-flight target computed by TcpBbr::InFlight agrees,
for every state, control block and gain, with the case formula the spec
gives: initial-window bytes when the min-RTT is unknown, and otherwise
gain times bdp plus quanta, with a two-segment bonus exactly in PROBE_BW
at cycle index zero. -/
theorem inFlight_eq_spec (s : BbrState) (tcb : Tcb) (gain : ℚ) :
    inFlight s tcb gain = specInFlightTarget s tcb gain := by
  unfold inFlight specInFlightTarget
  by_cases h : s.minRtt = timeMax
  · simp [h]
  · by_cases hp : s.state = BbrMode.probeBW ∧ s.cycleIndex = 0
    · simp [h, hp]
    · simp [h, hp]

/-- Claim C10: setting the initial DCTCP alpha after Init has run aborts
(the none result), while setting it on a not-yet-initialized model
succeeds and stores exactly the given value. -/
theorem initDctcpAlpha_contract (s : BbrState) (tcb : Tcb) (a : ℚ)
    (h : s.dctcpInit = false) :
    initDctcpAlpha ((bbrInit s tcb).1) a = none ∧
    initDctcpAlpha s a = some { s with alpha := a } := by
  constructor
  · simp [initDctcpAlpha, bbrInit]
  · simp [initDctcpAlpha, h]

/-- Witness for C10 at a concrete state. -/
theorem initDctcpAlpha_contract_witness :
    initDctcpAlpha ((bbrInit baseState baseTcb).1) (1/2) = none ∧
    initDctcpAlpha baseState (1/2) = some { baseState with alpha := 1/2 } :=
  initDctcpAlpha_contract baseState baseTcb (1/2) rfl

/-- Claim C8, counterexample: a sample with a negative interval (and a
nonnegative delivered count) is processed, not ignored: the round count
changes, refuting that every sample with non-positive interval leaves the
estimator state unchanged. -/
theorem invalid_sample_negative_interval_updates_state :
    exRs8.interval < 0 ∧ 0 ≤ exRs8.delivered ∧
    (updateBottleneckBandwidth baseState exRs8).roundCount ≠
      baseState.roundCount := by
  decide

/-- Claim C8 (amended): a delivery sample with a negative delivered count
or a zero (rather than non-positive) interval is silently ignored: the
bandwidth/RTT update step returns with the whole model state unchanged, so
in particular the bandwidth filter, the round count, the next-round
threshold, the round-start flag and the packet-conservation flag are
untouched. -/
theorem invalid_sample_ignored (s : BbrState) (rs : RateSample)
    (h : rs.delivered < 0 ∨ rs.interval = 0) :
    updateBottleneckBandwidth s rs = s := by
  unfold updateBottleneckBandwidth
  rw [if_pos h]

/-- Witness for C8 at a concrete sample with negative delivered count. -/
theorem invalid_sample_ignored_witness :
    updateBottleneckBandwidth baseState exRs8w = baseState :=
  invalid_sample_ignored baseState exRs8w (Or.inl (by decide))

/-- Claim C1, counterexample: in loss recovery with packet conservation
active, SetCwnd on a sample with a nonzero acked byte count leaves the
congestion window at one segment, below the minimum pipe window of four
segments, refuting the claimed unconditional floor. -/
theorem setCwnd_below_min_pipe_in_recovery :
    exRs1.ackedSacked ≠ 0 ∧
    exS1.minPipeCwnd = 4 * exTcb1.segmentSize ∧
    (setCwnd exS1 exTcb1 exRs1).2.cWnd < exS1.minPipeCwnd := by
  decide

/-- Claim C1 (amended): after SetCwnd processes a sample with a nonzero
acked byte count, the congestion window is at least the minimum pipe
window of four segments, provided the call does not take the
recovery-with-packet-conservation early exit, which skips the floor. -/
theorem minPipe_le_modulate (s1 : BbrState) (tcb2 : Tcb)
    (h : s1.minPipeCwnd ≤ tcb2.cWnd) :
    s1.minPipeCwnd ≤ (modulateCwndForProbeRTT s1 tcb2).cWnd := by
  unfold modulateCwndForProbeRTT
  split
  · have hm : s1.minPipeCwnd ≤ min tcb2.cWnd s1.minPipeCwnd := le_min h le_rfl
    simpa using hm
  · exact h

theorem setCwnd_floors_at_min_pipe (s : BbrState) (tcb : Tcb) (rs : RateSample)
    (hAck : rs.ackedSacked ≠ 0)
    (hNoCons : ¬(tcb.congState = TcpCongState.caRecovery ∧
      s.packetConservation = true))
    (hMin : s.minPipeCwnd = 4 * tcb.segmentSize) :
    4 * tcb.segmentSize ≤ ((setCwnd s tcb rs).2).cWnd := by
  rw [← hMin]
  have hmr2 : (if tcb.congState = TcpCongState.caRecovery then
      modulateCwndForRecovery s tcb rs else (tcb, false)).2 = false := by
    by_cases hrec : tcb.congState = TcpCongState.caRecovery
    · cases hcons : s.packetConservation
      · rw [if_pos hrec]
        simp [modulateCwndForRecovery, hcons]
      · exact absurd ⟨hrec, hcons⟩ hNoCons
    · rw [if_neg hrec]
  simp only [setCwnd, if_neg hAck, hmr2, Bool.false_eq_true, if_false]
  exact minPipe_le_modulate _ _ (Nat.le_max_right _ _)

/-- Witness for C1 at a concrete non-recovery input. -/
theorem setCwnd_floors_at_min_pipe_witness :
    4 * baseTcb.segmentSize ≤ ((setCwnd baseState baseTcb exRs1w).2).cWnd :=
  setCwnd_floors_at_min_pipe baseState baseTcb exRs1w (by decide) (by decide)
    (by decide)

theorem pacingGainCycle_mod (a : ℕ) : pacingGainCycle (a % 8) = pacingGainCycle a := by
  unfold pacingGainCycle
  rw [Nat.mod_mod_of_dvd a (dvd_refl 8)]

theorem pacingGainCycle_congr {a b : ℕ} (h : a % 8 = b % 8) :
    pacingGainCycle a = pacingGainCycle b := by
  unfold pacingGainCycle
  rw [h]

theorem advanceCyclePhase_cycleIndex (s : BbrState) (t : ℚ) :
    (advanceCyclePhase s t).cycleIndex = (s.cycleIndex + 1) % 8 := rfl

theorem advanceRun_cycle : ∀ (ts : List ℚ) (s : BbrState),
    s.cycleIndex < 8 →
    s.pacingGain = pacingGainCycle s.cycleIndex →
    (advanceRun s ts).cycleIndex = (s.cycleIndex + ts.length) % 8 ∧
    (advanceRun s ts).pacingGain = pacingGainCycle (s.cycleIndex + ts.length)
  | [], s, hi, hg => by
      constructor
      · simpa [advanceRun] using (Nat.mod_eq_of_lt hi).symm
      · simpa [advanceRun] using hg
  | t :: ts, s, hi, hg => by
      have hi1 : (advanceCyclePhase s t).cycleIndex < 8 := Nat.mod_lt _ (by omega)
      have hg1 : (advanceCyclePhase s t).pacingGain =
          pacingGainCycle (advanceCyclePhase s t).cycleIndex := rfl
      have ih := advanceRun_cycle ts (advanceCyclePhase s t) hi1 hg1
      rw [advanceCyclePhase_cycleIndex] at ih
      have hstep : advanceRun s (t :: ts) = advanceRun (advanceCyclePhase s t) ts := rfl
      rw [hstep, List.length_cons]
      constructor
      · rw [ih.1]
        omega
      · rw [ih.2]
        exact pacingGainCycle_congr (by omega)

/-- Claim C3: entering PROBE_BW with random draw r initializes the cycle
index to cycle length minus one minus r and advances once immediately, so
the index becomes (8 - r) mod 8 with the pacing gain read from the cycle
table there; every later advance moves to the cycle value at the
incremented index modulo 8, so over any run of advances (in particular
over any 8 consecutive ones) the gains are the table 5/4, 3/4, 1, 1, 1, 1,
1, 1 read cyclically from the randomized offset. -/
theorem probeBW_gain_cycle (s : BbrState) (now : ℚ) (r : ℕ) (hr : r ≤ 6) :
    (enterProbeBW s now r).cycleIndex = (8 - r) % 8 ∧
    (enterProbeBW s now r).pacingGain = pacingGainCycle (8 - r) ∧
    ∀ ts : List ℚ,
      (advanceRun (enterProbeBW s now r) ts).cycleIndex = (8 - r + ts.length) % 8 ∧
      (advanceRun (enterProbeBW s now r) ts).pacingGain =
        pacingGainCycle (8 - r + ts.length) := by
  have hidx : (enterProbeBW s now r).cycleIndex = (8 - r) % 8 := by
    show (8 - 1 - r + 1) % 8 = (8 - r) % 8
    congr 1
    omega
  have hgain : (enterProbeBW s now r).pacingGain = pacingGainCycle (8 - r) := by
    show pacingGainCycle ((8 - 1 - r + 1) % 8) = pacingGainCycle (8 - r)
    rw [pacingGainCycle_mod]
    congr 1
    omega
  refine ⟨hidx, hgain, fun ts => ?_⟩
  have hlt : (enterProbeBW s now r).cycleIndex < 8 := by
    rw [hidx]
    exact Nat.mod_lt _ (by omega)
  have hg : (enterProbeBW s now r).pacingGain =
      pacingGainCycle (enterProbeBW s now r).cycleIndex := by
    rw [hidx, hgain, pacingGainCycle_mod]
  have h := advanceRun_cycle ts (enterProbeBW s now r) hlt hg
  rw [hidx] at h
  constructor
  · rw [h.1]
    omega
  · rw [h.2]
    exact pacingGainCycle_congr (by omega)

/-- Witness for C3 at the concrete draw r equal to 3. -/
theorem probeBW_gain_cycle_witness :
    (enterProbeBW baseState 0 3).cycleIndex = (8 - 3) % 8 ∧
    (enterProbeBW baseState 0 3).pacingGain = pacingGainCycle (8 - 3) :=
  ⟨(probeBW_gain_cycle baseState 0 3 (by decide)).1,
   (probeBW_gain_cycle baseState 0 3 (by decide)).2.1⟩

theorem checkFullPipe_mono (s : BbrState) (rs : RateSample)
    (h : s.isPipeFilled = true) : (checkFullPipe s rs).isPipeFilled = true := by
  unfold checkFullPipe
  rw [if_pos (Or.inl (by simp [h]))]
  exact h

theorem fireCount_of_filled : ∀ (l : List RateSample) (s : BbrState),
    s.isPipeFilled = true → fireCount s l = 0
  | [], _, _ => rfl
  | rs :: l, s, h => by
      have h1 := checkFullPipe_mono s rs h
      simp [fireCount, h, fireCount_of_filled l _ h1]

theorem fireCount_le_one : ∀ (l : List RateSample) (s : BbrState), fireCount s l ≤ 1
  | [], _ => Nat.zero_le 1
  | rs :: l, s => by
      by_cases h : s.isPipeFilled = true
      · rw [fireCount_of_filled (rs :: l) s h]
        omega
      · by_cases h1 : (checkFullPipe s rs).isPipeFilled = true
        · simp [fireCount, h, h1, fireCount_of_filled l _ h1]
        · have ht := fireCount_le_one l (checkFullPipe s rs)
          simp only [fireCount, h1]
          simpa using ht

/-- Claim C2: the pipe-filled latch driving the STARTUP to DRAIN
transition is monotone, so along any trace of delivery samples it flips at
most once; a step flips it exactly when the sample opens a round that is
not app-limited, the best bandwidth has grown less than 5/4 over the
recorded full bandwidth, and two such rounds were already counted (so the
flip happens on the third); the counter grows only on such qualifying
rounds, and a qualifying round that does show 5/4 growth resets the
counter to zero and re-records the full bandwidth. -/
theorem fullPipe_latch (s : BbrState) (rs : RateSample) (l : List RateSample) :
    (s.isPipeFilled = true → (checkFullPipe s rs).isPipeFilled = true) ∧
    fireCount s l ≤ 1 ∧
    (s.isPipeFilled = false →
      ((checkFullPipe s rs).isPipeFilled = true ↔
        s.roundStart = true ∧ rs.isAppLimited = false ∧
        s.maxBwFilter.best < s.fullBandwidth * (5/4) ∧
        2 ≤ s.fullBandwidthCount)) ∧
    ((checkFullPipe s rs).fullBandwidthCount = s.fullBandwidthCount + 1 ↔
      s.isPipeFilled = false ∧ s.roundStart = true ∧ rs.isAppLimited = false ∧
      s.maxBwFilter.best < s.fullBandwidth * (5/4)) ∧
    (s.isPipeFilled = false → s.roundStart = true → rs.isAppLimited = false →
      s.fullBandwidth * (5/4) ≤ s.maxBwFilter.best →
      (checkFullPipe s rs).fullBandwidthCount = 0 ∧
      (checkFullPipe s rs).fullBandwidth = s.maxBwFilter.best) := by
  have hguard : ∀ (h : s.isPipeFilled = true ∨ s.roundStart = false ∨
      rs.isAppLimited = true), checkFullPipe s rs = s := by
    intro h
    unfold checkFullPipe
    rw [if_pos]
    rcases h with h | h | h
    · exact Or.inl (by simp [h])
    · exact Or.inr (Or.inl (by simp [h]))
    · exact Or.inr (Or.inr (by simp [h]))
  have hin : ∀ (_ : s.isPipeFilled = false) (_ : s.roundStart = true)
      (_ : rs.isAppLimited = false),
      ¬(s.isPipeFilled = true ∨ ¬s.roundStart = true ∨ rs.isAppLimited = true) := by
    intro hf hr ha
    simp [hf, hr, ha]
  have hgrowth : ∀ (_ : s.isPipeFilled = false) (_ : s.roundStart = true)
      (_ : rs.isAppLimited = false)
      (_ : s.fullBandwidth * (5/4) ≤ s.maxBwFilter.best),
      checkFullPipe s rs =
        { s with fullBandwidth := s.maxBwFilter.best, fullBandwidthCount := 0 } := by
    intro hf hr ha hg
    unfold checkFullPipe
    rw [if_neg (hin hf hr ha), if_pos hg]
  have hfire : ∀ (_ : s.isPipeFilled = false) (_ : s.roundStart = true)
      (_ : rs.isAppLimited = false)
      (_ : ¬s.fullBandwidth * (5/4) ≤ s.maxBwFilter.best)
      (_ : 3 ≤ s.fullBandwidthCount + 1),
      checkFullPipe s rs = { s with
        fullBandwidthCount := s.fullBandwidthCount + 1, isPipeFilled := true } := by
    intro hf hr ha hg hc
    unfold checkFullPipe
    rw [if_neg (hin hf hr ha), if_neg hg, if_pos hc]
  have hcount : ∀ (_ : s.isPipeFilled = false) (_ : s.roundStart = true)
      (_ : rs.isAppLimited = false)
      (_ : ¬s.fullBandwidth * (5/4) ≤ s.maxBwFilter.best)
      (_ : ¬3 ≤ s.fullBandwidthCount + 1),
      checkFullPipe s rs =
        { s with fullBandwidthCount := s.fullBandwidthCount + 1 } := by
    intro hf hr ha hg hc
    unfold checkFullPipe
    rw [if_neg (hin hf hr ha), if_neg hg, if_neg hc]
  refine ⟨checkFullPipe_mono s rs, fireCount_le_one l s, ?_, ?_, ?_⟩
  · intro hf
    cases hrb : s.roundStart
    · rw [hguard (Or.inr (Or.inl hrb))]
      simp [hf]
    · cases hab : rs.isAppLimited
      · by_cases hg : s.fullBandwidth * (5/4) ≤ s.maxBwFilter.best
        · rw [hgrowth hf hrb hab hg]
          simp [hf, not_lt.mpr hg]
        · by_cases hc : 3 ≤ s.fullBandwidthCount + 1
          · rw [hfire hf hrb hab hg hc]
            simp [not_le.mp hg]
            omega
          · rw [hcount hf hrb hab hg hc]
            simp [hf, not_le.mp hg]
            omega
      · rw [hguard (Or.inr (Or.inr hab))]
        simp [hf]
  · cases hfb : s.isPipeFilled
    · cases hrb : s.roundStart
      · rw [hguard (Or.inr (Or.inl hrb))]
        simp
      · cases hab : rs.isAppLimited
        · by_cases hg : s.fullBandwidth * (5/4) ≤ s.maxBwFilter.best
          · rw [hgrowth hfb hrb hab hg]
            simp [not_lt.mpr hg]
          · by_cases hc : 3 ≤ s.fullBandwidthCount + 1
            · rw [hfire hfb hrb hab hg hc]
              simp [not_le.mp hg]
            · rw [hcount hfb hrb hab hg hc]
              simp [not_le.mp hg]
        · rw [hguard (Or.inr (Or.inr hab))]
          simp
    · rw [hguard (Or.inl hfb)]
      simp
  · intro hf hr ha hg
    rw [hgrowth hf hr ha hg]
    constructor <;> rfl

/-- Witness for C2: a concrete qualifying third round flips the latch,
and the fire count of a one-sample trace is at most one. -/
theorem fullPipe_latch_witness :
    (checkFullPipe exS2 baseRs).isPipeFilled = true ∧
    fireCount exS2 [baseRs] ≤ 1 := by
  have h := fullPipe_latch exS2 baseRs [baseRs]
  refine ⟨(h.2.2.1 rfl).mpr ⟨rfl, rfl, ?_, by decide⟩, h.2.1⟩
  norm_num [exS2, baseState]

theorem epochStore_extraAckedIdx (s1 : BbrState) (tcb : Tcb) (rs : RateSample)
    (now : ℚ) : (epochStore s1 tcb rs now).extraAckedIdx = s1.extraAckedIdx := rfl

theorem epochStore_extraAckedWinRtt (s1 : BbrState) (tcb : Tcb) (rs : RateSample)
    (now : ℚ) :
    (epochStore s1 tcb rs now).extraAckedWinRtt = s1.extraAckedWinRtt := rfl

theorem epochStore_roundStart (s1 : BbrState) (tcb : Tcb) (rs : RateSample)
    (now : ℚ) : (epochStore s1 tcb rs now).roundStart = s1.roundStart := rfl

theorem epochStore_extraAckedGain (s1 : BbrState) (tcb : Tcb) (rs : RateSample)
    (now : ℚ) :
    (epochStore s1 tcb rs now).extraAckedGain = s1.extraAckedGain := rfl

theorem epochStore_extraAcked0_le (s1 : BbrState) (tcb : Tcb) (rs : RateSample)
    (now : ℚ) :
    (epochStore s1 tcb rs now).extraAcked0 ≤ max s1.extraAcked0 tcb.cWnd := by
  unfold epochStore
  dsimp only
  split_ifs <;> omega

theorem epochStore_extraAcked1_le (s1 : BbrState) (tcb : Tcb) (rs : RateSample)
    (now : ℚ) :
    (epochStore s1 tcb rs now).extraAcked1 ≤ max s1.extraAcked1 tcb.cWnd := by
  unfold epochStore
  dsimp only
  split_ifs <;> omega

theorem epochStore_extraAcked0_eq (s1 : BbrState) (tcb : Tcb) (rs : RateSample)
    (now : ℚ) :
    (epochStore s1 tcb rs now).extraAcked0 =
      if s1.extraAckedIdx = 0 then
        max s1.extraAcked0 (epochExtraAck s1 tcb rs now)
      else s1.extraAcked0 := by
  unfold epochStore epochExtraAck
  dsimp only
  split_ifs <;> omega

theorem extraAckedAging_noround (s : BbrState) (h : s.roundStart = false) :
    extraAckedAging s = s := by
  unfold extraAckedAging
  rw [if_neg (by simp [h])]

theorem extraAckedAging_flip (s : BbrState)
    (hRound : s.roundStart = true)
    (hInv : s.extraAckedWinRtt < s.extraAckedWinRttLength)
    (hLen : s.extraAckedWinRttLength ≤ 31)
    (hFlip : s.extraAckedWinRtt + 1 = s.extraAckedWinRttLength) :
    extraAckedAging s =
      (if s.extraAckedIdx = 0 then
        { s with extraAckedWinRtt := 0, extraAckedIdx := 1, extraAcked1 := 0 }
      else
        { s with extraAckedWinRtt := 0, extraAckedIdx := 0, extraAcked0 := 0 }) := by
  unfold extraAckedAging
  rw [if_pos (by simp [hRound])]
  have hw : min 31 (s.extraAckedWinRtt + 1) = s.extraAckedWinRtt + 1 := by omega
  rw [hw, if_pos (by omega)]
  by_cases hz : s.extraAckedIdx = 0
  · rw [if_pos hz]
    have : (if s.extraAckedIdx ≠ 0 then 0 else 1) = 1 := by simp [hz]
    rw [this]
    simp
  · rw [if_neg hz]
    have : (if s.extraAckedIdx ≠ 0 then 0 else 1) = 0 := by simp [hz]
    rw [this]
    simp

theorem extraAckedAging_noflip (s : BbrState)
    (hRound : s.roundStart = true)
    (hInv : s.extraAckedWinRtt < s.extraAckedWinRttLength)
    (hLen : s.extraAckedWinRttLength ≤ 31)
    (hFlip : s.extraAckedWinRtt + 1 ≠ s.extraAckedWinRttLength) :
    extraAckedAging s = { s with extraAckedWinRtt := s.extraAckedWinRtt + 1 } := by
  unfold extraAckedAging
  rw [if_pos (by simp [hRound])]
  have hw : min 31 (s.extraAckedWinRtt + 1) = s.extraAckedWinRtt + 1 := by omega
  rw [hw, if_neg (by omega)]

/-- Claim C7, counterexample: a first aggregation update under a 10000
byte window stores 8000 extra-acked bytes; after the congestion window
shrinks to 4000 bytes, a second update keeps the stored slot at 8000,
which exceeds the current congestion window, refuting the claimed
invariant that both slots never exceed the current window. -/
theorem extraAcked_exceeds_cwnd :
    exTcb7b.cWnd < (updateAckAggregation exS7b exTcb7b exRs7b 2).extraAcked0 ∧
    exTcb7b.cWnd < exS7b.extraAcked0 := by
  have hguard1 : ¬(exS7.extraAckedGain = 0 ∨ exRs7a.ackedSacked = 0 ∨
      exRs7a.delivered < 0) := by decide
  have e1 : exS7b = epochStore exS7 exTcb7a exRs7a 1 := by
    show updateAckAggregation exS7 exTcb7a exRs7a 1 = _
    unfold updateAckAggregation
    rw [if_neg hguard1, extraAckedAging_noround exS7 rfl]
  have hx : epochExtraAck exS7 exTcb7a exRs7a 1 = 8000 := by
    simp only [epochExtraAck, exS7, exTcb7a, exRs7a, baseState, baseTcb, baseRs]
    norm_num [toUint]
  have v1 : exS7b.extraAcked0 = 8000 := by
    rw [e1, epochStore_extraAcked0_eq,
      if_pos (show exS7.extraAckedIdx = 0 from rfl), hx]
    have h0 : exS7.extraAcked0 = 0 := rfl
    omega
  have hidx : exS7b.extraAckedIdx = 0 := by
    rw [e1, epochStore_extraAckedIdx]
    rfl
  have hround : exS7b.roundStart = false := by
    rw [e1, epochStore_roundStart]
    rfl
  have hgainp : exS7b.extraAckedGain = 1 := by
    rw [e1, epochStore_extraAckedGain]
    rfl
  have hguard2 : ¬(exS7b.extraAckedGain = 0 ∨ exRs7b.ackedSacked = 0 ∨
      exRs7b.delivered < 0) := by
    rw [hgainp]
    decide
  have e2 : updateAckAggregation exS7b exTcb7b exRs7b 2 =
      epochStore exS7b exTcb7b exRs7b 2 := by
    unfold updateAckAggregation
    rw [if_neg hguard2, extraAckedAging_noround exS7b hround]
  have v2 : (updateAckAggregation exS7b exTcb7b exRs7b 2).extraAcked0 =
      max exS7b.extraAcked0 (epochExtraAck exS7b exTcb7b exRs7b 2) := by
    rw [e2, epochStore_extraAcked0_eq, if_pos hidx]
  have hcw : exTcb7b.cWnd = 4000 := rfl
  refine ⟨?_, ?_⟩
  · rw [v2, v1]
    have h1 : (8000:ℕ) ≤ max 8000 (epochExtraAck exS7b exTcb7b exRs7b 2) :=
      Nat.le_max_left _ _
    omega
  · rw [v1, hcw]
    omega

/-- Claim C7 (amended): a value stored into an extra-acked slot by an
update never exceeds the congestion window current at that update (so
after the update each slot is bounded by the larger of its prior value and
the current window, though a previously stored value may exceed a later,
smaller window); and under the window-length invariant the active slot
index flips exactly on every extraAckedWinRttLength-th qualifying round
start, zeroing the newly active slot before any store, and is unchanged on
every other one, with the round-age counter incrementing until the flip
resets it to zero. -/
theorem ackAggregation_bounds_and_flip (s : BbrState) (tcb : Tcb)
    (rs : RateSample) (now : ℚ)
    (hGain : s.extraAckedGain ≠ 0) (hAck : rs.ackedSacked ≠ 0)
    (hDel : 0 ≤ rs.delivered)
    (hRound : s.roundStart = true)
    (hInv : s.extraAckedWinRtt < s.extraAckedWinRttLength)
    (hLen : s.extraAckedWinRttLength ≤ 31)
    (hIdx : s.extraAckedIdx ≤ 1) :
    (updateAckAggregation s tcb rs now).extraAcked0 ≤ max s.extraAcked0 tcb.cWnd ∧
    (updateAckAggregation s tcb rs now).extraAcked1 ≤ max s.extraAcked1 tcb.cWnd ∧
    (s.extraAckedWinRtt + 1 = s.extraAckedWinRttLength →
      (updateAckAggregation s tcb rs now).extraAckedIdx = 1 - s.extraAckedIdx ∧
      (updateAckAggregation s tcb rs now).extraAckedWinRtt = 0 ∧
      (if s.extraAckedIdx = 0 then (updateAckAggregation s tcb rs now).extraAcked1
       else (updateAckAggregation s tcb rs now).extraAcked0) ≤ tcb.cWnd) ∧
    (s.extraAckedWinRtt + 1 ≠ s.extraAckedWinRttLength →
      (updateAckAggregation s tcb rs now).extraAckedIdx = s.extraAckedIdx ∧
      (updateAckAggregation s tcb rs now).extraAckedWinRtt =
        s.extraAckedWinRtt + 1) := by
  have hguard : ¬(s.extraAckedGain = 0 ∨ rs.ackedSacked = 0 ∨ rs.delivered < 0) := by
    push_neg
    exact ⟨hGain, hAck, hDel⟩
  have hupd : updateAckAggregation s tcb rs now =
      epochStore (extraAckedAging s) tcb rs now := by
    unfold updateAckAggregation
    rw [if_neg hguard]
  by_cases hFlip : s.extraAckedWinRtt + 1 = s.extraAckedWinRttLength
  · have hag := extraAckedAging_flip s hRound hInv hLen hFlip
    by_cases hz : s.extraAckedIdx = 0
    · rw [if_pos hz] at hag
      refine ⟨?_, ?_, ?_, ?_⟩
      · have h := epochStore_extraAcked0_le (extraAckedAging s) tcb rs now
        rw [hupd]
        rw [hag] at h ⊢
        simpa using h
      · have h := epochStore_extraAcked1_le (extraAckedAging s) tcb rs now
        rw [hupd]
        rw [hag] at h ⊢
        simp at h
        omega
      · intro _
        refine ⟨?_, ?_, ?_⟩
        · rw [hupd, epochStore_extraAckedIdx, hag, hz]
        · rw [hupd, epochStore_extraAckedWinRtt, hag]
        · rw [if_pos hz, hupd]
          have h := epochStore_extraAcked1_le (extraAckedAging s) tcb rs now
          rw [hag] at h ⊢
          simp at h
          omega
      · intro h
        exact absurd hFlip h
    · rw [if_neg hz] at hag
      have hone : s.extraAckedIdx = 1 := by omega
      refine ⟨?_, ?_, ?_, ?_⟩
      · have h := epochStore_extraAcked0_le (extraAckedAging s) tcb rs now
        rw [hupd]
        rw [hag] at h ⊢
        simp at h
        omega
      · have h := epochStore_extraAcked1_le (extraAckedAging s) tcb rs now
        rw [hupd]
        rw [hag] at h ⊢
        simpa using h
      · intro _
        refine ⟨?_, ?_, ?_⟩
        · rw [hupd, epochStore_extraAckedIdx, hag, hone]
        · rw [hupd, epochStore_extraAckedWinRtt, hag]
        · rw [if_neg hz, hupd]
          have h := epochStore_extraAcked0_le (extraAckedAging s) tcb rs now
          rw [hag] at h ⊢
          simp at h
          omega
      · intro h
        exact absurd hFlip h
  · have hag := extraAckedAging_noflip s hRound hInv hLen hFlip
    refine ⟨?_, ?_, ?_, ?_⟩
    · have h := epochStore_extraAcked0_le (extraAckedAging s) tcb rs now
      rw [hupd]
      rw [hag] at h ⊢
      simpa using h
    · have h := epochStore_extraAcked1_le (extraAckedAging s) tcb rs now
      rw [hupd]
      rw [hag] at h ⊢
      simpa using h
    · intro h
      exact absurd h hFlip
    · intro _
      constructor
      · rw [hupd, epochStore_extraAckedIdx, hag]
      · rw [hupd, epochStore_extraAckedWinRtt, hag]

/-- Witness for C7: a concrete fifth qualifying round start flips the
active slot. -/
theorem ackAggregation_bounds_and_flip_witness :
    (updateAckAggregation exS7w baseTcb exRs7b 1).extraAcked0 ≤
      max exS7w.extraAcked0 baseTcb.cWnd ∧
    (updateAckAggregation exS7w baseTcb exRs7b 1).extraAckedIdx =
      1 - exS7w.extraAckedIdx ∧
    (updateAckAggregation exS7w baseTcb exRs7b 1).extraAckedWinRtt = 0 := by
  have h := ackAggregation_bounds_and_flip exS7w baseTcb exRs7b 1 (by decide)
    (by decide) (by decide) (by decide) (by decide) (by decide) (by decide)
  exact ⟨h.1, (h.2.2.1 (by decide)).1, (h.2.2.1 (by decide)).2.1⟩

/-- Claim C5: on a batch whose last acked sequence reaches the current
observation-window boundary (the flag being set, so the boundary is the
stored next sequence), the smoothed marking fraction becomes
(1-g) alpha + g (M/N), with M the window's accumulated marked bytes and N
its accumulated total bytes, both including this batch, the fraction
treated as zero when N is zero; afterwards both accumulators are zero and
the boundary is the current next-tx sequence. -/
theorem pktsAcked_alpha_update (s : BbrState) (tcb : Tcb) (segs : ℕ) (rtt : ℚ)
    (hFlag : s.nextSeqFlag = true)
    (hSeq : s.nextSeq ≤ tcb.lastAckedSeq) :
    (pktsAcked s tcb segs rtt).alpha =
      (1 - s.g) * s.alpha + s.g *
        (if 0 < s.ackedBytesTotal + segs * tcb.segmentSize then
          ((s.ackedBytesEcn +
            (if tcb.ecnState = EcnStateKind.eceRcvd then segs * tcb.segmentSize
             else 0) : ℕ) : ℚ) /
          ((s.ackedBytesTotal + segs * tcb.segmentSize : ℕ) : ℚ)
         else 0) ∧
    (pktsAcked s tcb segs rtt).ackedBytesTotal = 0 ∧
    (pktsAcked s tcb segs rtt).ackedBytesEcn = 0 ∧
    (pktsAcked s tcb segs rtt).nextSeq = tcb.nextTxSequence ∧
    (pktsAcked s tcb segs rtt).nextSeqFlag = true := by
  by_cases hE : tcb.ecnState = EcnStateKind.eceRcvd
  · by_cases h0 : tcb.ectCodePoint = EcnCodePoint.ect0
    · simp [pktsAcked, hE, h0, hFlag, hSeq]
    · by_cases h1 : tcb.ectCodePoint = EcnCodePoint.ect1
      · simp [pktsAcked, hE, h0, h1, hFlag, hSeq]
      · simp [pktsAcked, hE, h0, h1, hFlag, hSeq]
  · simp [pktsAcked, hE, hFlag, hSeq]

/-- Witness for C5: one thousand accumulated bytes of which five hundred
marked, one batch of ten 100-byte segments unmarked, g of 1/16 and alpha
of 1 give the new alpha 61/64, with the accumulators reset. -/
theorem pktsAcked_alpha_update_witness :
    (pktsAcked exS5 exTcb5 10 (1/10)).alpha =
      (1 - exS5.g) * exS5.alpha + exS5.g *
        (if 0 < exS5.ackedBytesTotal + 10 * exTcb5.segmentSize then
          ((exS5.ackedBytesEcn +
            (if exTcb5.ecnState = EcnStateKind.eceRcvd then
              10 * exTcb5.segmentSize else 0) : ℕ) : ℚ) /
          ((exS5.ackedBytesTotal + 10 * exTcb5.segmentSize : ℕ) : ℚ)
         else 0) ∧
    (pktsAcked exS5 exTcb5 10 (1/10)).ackedBytesTotal = 0 ∧
    (pktsAcked exS5 exTcb5 10 (1/10)).ackedBytesEcn = 0 ∧
    (pktsAcked exS5 exTcb5 10 (1/10)).nextSeq = exTcb5.nextTxSequence ∧
    (pktsAcked exS5 exTcb5 10 (1/10)).nextSeqFlag = true :=
  pktsAcked_alpha_update exS5 exTcb5 10 (1/10) rfl (by decide)

/-- Claim C6, counterexample: with the prior cwnd gain at 1 and an ECT(0)
marked acknowledgment, the nudged gain is 1.1, outside the claimed
interval 1.5 to 2.5, refuting that the resulting gain always lies in that
band. -/
theorem pktsAcked_gain_outside_band :
    exTcb6.ecnState = EcnStateKind.eceRcvd ∧
    exTcb6.ectCodePoint = EcnCodePoint.ect0 ∧
    (pktsAcked exS6 exTcb6 1 (1/10)).cWndGain < 3/2 := by
  refine ⟨rfl, rfl, ?_⟩
  have h : (pktsAcked exS6 exTcb6 1 (1/10)).cWndGain = min (5/2) (1 + 1/10) := by
    simp [pktsAcked, exS6, exTcb6, baseState, baseTcb]
  rw [h]
  norm_num

/-- Claim C6 (amended): while the ECN state indicates a marked
acknowledgment, under ECT(0) the cwnd gain becomes min(2.5, gain + 0.1),
so it increases by at most 0.1 and never ends above 2.5, and under ECT(1)
it becomes max(1.5, gain - 0.1), so it decreases by at most 0.1 and never
ends below 1.5; the result lies in the band 1.5 to 2.5 only from the
respective side. -/
theorem pktsAcked_gain_nudge (s : BbrState) (tcb : Tcb) (segs : ℕ) (rtt : ℚ)
    (hEcn : tcb.ecnState = EcnStateKind.eceRcvd) :
    (tcb.ectCodePoint = EcnCodePoint.ect0 →
      (pktsAcked s tcb segs rtt).cWndGain = min (5/2) (s.cWndGain + 1/10) ∧
      (pktsAcked s tcb segs rtt).cWndGain ≤ 5/2 ∧
      (pktsAcked s tcb segs rtt).cWndGain ≤ s.cWndGain + 1/10) ∧
    (tcb.ectCodePoint = EcnCodePoint.ect1 →
      (pktsAcked s tcb segs rtt).cWndGain = max (3/2) (s.cWndGain - 1/10) ∧
      3/2 ≤ (pktsAcked s tcb segs rtt).cWndGain ∧
      s.cWndGain - 1/10 ≤ (pktsAcked s tcb segs rtt).cWndGain) := by
  constructor
  · intro h0
    have hv : (pktsAcked s tcb segs rtt).cWndGain =
        min (5/2) (s.cWndGain + 1/10) := by
      cases hF : s.nextSeqFlag
      · by_cases hB : tcb.nextTxSequence ≤ tcb.lastAckedSeq
        · simp [pktsAcked, hEcn, h0, hF, hB]
        · simp [pktsAcked, hEcn, h0, hF, hB]
      · by_cases hB : s.nextSeq ≤ tcb.lastAckedSeq
        · simp [pktsAcked, hEcn, h0, hF, hB]
        · simp [pktsAcked, hEcn, h0, hF, hB]
    exact ⟨hv, hv ▸ min_le_left _ _, hv ▸ min_le_right _ _⟩
  · intro h1
    have hv : (pktsAcked s tcb segs rtt).cWndGain =
        max (3/2) (s.cWndGain - 1/10) := by
      cases hF : s.nextSeqFlag
      · by_cases hB : tcb.nextTxSequence ≤ tcb.lastAckedSeq
        · simp [pktsAcked, hEcn, h1, hF, hB]
        · simp [pktsAcked, hEcn, h1, hF, hB]
      · by_cases hB : s.nextSeq ≤ tcb.lastAckedSeq
        · simp [pktsAcked, hEcn, h1, hF, hB]
        · simp [pktsAcked, hEcn, h1, hF, hB]
    exact ⟨hv, hv ▸ le_max_left _ _, hv ▸ le_max_right _ _⟩

/-- Witness for C6 at a prior gain of 2 under ECT(0). -/
theorem pktsAcked_gain_nudge_witness :
    (pktsAcked exS6w exTcb6 1 (1/10)).cWndGain =
      min (5/2) (exS6w.cWndGain + 1/10) :=
  ((pktsAcked_gain_nudge exS6w exTcb6 1 (1/10) rfl).1 rfl).1

end NS3Bbr
